import Mathlib

/-!
Verification development for the BESCO coffee-bean back-office API.

The definitions below are a shallow embedding of the repository's data model
(`models.py`), its inventory ledger and order/purchase endpoints (`main.py`),
and its profit analytics (`app/routers/analytics.py`, the router actually
mounted by `main.py`).  Monetary amounts and quantities are embedded as `ℚ`
(the source uses SQL floats), and SQL timestamps as calendar dates compared
lexicographically.  Fallible endpoints are embedded as `Except`-valued
functions: an `Except.error` result models the Python handler raising
`HTTPException` after `db.rollback()`, so the caller's database state is the
unchanged pre-call state.
-/

namespace Besco

/-- A calendar date, embedding the `DateTime` columns of `models.py` at the
day granularity used by the date arithmetic in the source. -/
structure Date where
  year : Int
  month : Nat
  day : Nat
deriving DecidableEq, Repr

/-- Lexicographic order on dates: the embedding of SQL timestamp comparison
(`purchase_date <= order_date`, `order_date BETWEEN ...`). -/
def Date.le (a b : Date) : Prop :=
  a.year < b.year ∨
    (a.year = b.year ∧ (a.month < b.month ∨ (a.month = b.month ∧ a.day ≤ b.day)))

instance (a b : Date) : Decidable (Date.le a b) := by
  unfold Date.le; infer_instance

theorem Date.le_refl (a : Date) : Date.le a a := by
  simp [Date.le]

theorem Date.le_trans {a b c : Date} (h₁ : Date.le a b) (h₂ : Date.le b c) :
    Date.le a c := by
  rcases h₁ with h | ⟨hy, h | ⟨hm, hd⟩⟩ <;>
    rcases h₂ with h' | ⟨hy', h' | ⟨hm', hd'⟩⟩ <;>
      simp_all [Date.le] <;> omega

theorem Date.le_total (a b : Date) : Date.le a b ∨ Date.le b a := by
  simp only [Date.le]; omega

/-- A row of the `materials` table (`models.py`, class `Material`).  The
`type` column ranges over the strings `"regular"`, `"single_origin"`,
`"blend"`. -/
structure Material where
  id : Nat
  name : String
  type : String
deriving DecidableEq, Repr

/-- A row of the `material_purchases` table (`models.py`,
class `MaterialPurchase`). -/
structure MaterialPurchase where
  id : Nat
  material_id : Nat
  material_name : String
  quantity_kg : ℚ
  price_per_kg : ℚ
  total_price : ℚ
  purchase_date : Date
deriving DecidableEq, Repr

/-- A row of the `orders` table (`models.py`, class `Order`).  A dangling
`material_id` (the material was deleted; `ondelete="SET NULL"`) is embedded
as an id that has no row in the materials list. -/
structure Order where
  id : Nat
  customer_name : String
  material_id : Nat
  material_name : String
  quantity : ℚ
  price_per_kg : ℚ
  total_price : ℚ
  order_date : Date
deriving DecidableEq, Repr

/-- A row of the `inventory` table (`models.py`, class `Inventory`). -/
structure Inventory where
  id : Nat
  material_id : Nat
  quantity : ℚ
deriving DecidableEq, Repr

/-- A row of the `blend_components` table (`models.py`,
class `BlendComponent`).  The source column `ratio` is named `portion` here. -/
structure BlendComponent where
  blend_id : Nat
  component_id : Nat
  portion : ℚ
deriving DecidableEq, Repr

/-- The latest purchase of a list, embedding
`ORDER BY mp.purchase_date DESC LIMIT 1` from the cost subquery of
`app/routers/analytics.py` (an earlier row wins a date tie). -/
def latestPurchase : List MaterialPurchase → Option MaterialPurchase
  | [] => none
  | p :: ps =>
    match latestPurchase ps with
    | none => some p
    | some q => if Date.le q.purchase_date p.purchase_date then some p else some q

/-- The as-of cost lookup of `app/routers/analytics.py` (the correlated
subquery shared by `get_profit_summary`, `get_product_profits`,
`get_customer_profits` and `get_monthly_profits`):
`SELECT mp.price_per_kg FROM material_purchases mp WHERE mp.material_id = o.material_id
AND mp.purchase_date <= o.order_date ORDER BY mp.purchase_date DESC LIMIT 1`,
wrapped in `COALESCE(..., 0)`. -/
def resolve_unit_cost (purchases : List MaterialPurchase) (mid : Nat) (as_of : Date) : ℚ :=
  match latestPurchase
      (purchases.filter fun p => p.material_id == mid && decide (Date.le p.purchase_date as_of)) with
  | some p => p.price_per_kg
  | none => 0

theorem latestPurchase_mem {l : List MaterialPurchase} {p : MaterialPurchase}
    (h : latestPurchase l = some p) : p ∈ l := by
  induction l with
  | nil => simp [latestPurchase] at h
  | cons q qs ih =>
    simp only [latestPurchase] at h
    cases hq : latestPurchase qs with
    | none => rw [hq] at h; simp at h; simp [h]
    | some r =>
      rw [hq] at h
      by_cases hle : Date.le r.purchase_date q.purchase_date
      · simp [hle] at h; simp [h]
      · simp [hle] at h
        exact List.mem_cons_of_mem _ (ih (h ▸ hq))

theorem latestPurchase_none_iff {l : List MaterialPurchase} :
    latestPurchase l = none ↔ l = [] := by
  cases l with
  | nil => simp [latestPurchase]
  | cons p ps =>
    simp only [latestPurchase]
    cases latestPurchase ps with
    | none => simp
    | some q => by_cases h : Date.le q.purchase_date p.purchase_date <;> simp [h]

theorem latestPurchase_maximal {l : List MaterialPurchase} {p : MaterialPurchase}
    (h : latestPurchase l = some p) :
    ∀ q ∈ l, Date.le q.purchase_date p.purchase_date := by
  induction l generalizing p with
  | nil => simp
  | cons a as ih =>
    simp only [latestPurchase] at h
    cases hq : latestPurchase as with
    | none =>
      rw [hq] at h
      simp at h
      subst h
      have has : as = [] := latestPurchase_none_iff.mp hq
      subst has
      intro r hr
      simp at hr
      subst hr
      exact Date.le_refl _
    | some m =>
      rw [hq] at h
      by_cases hle : Date.le m.purchase_date a.purchase_date
      · simp [hle] at h
        subst h
        intro r hr
        rcases List.mem_cons.mp hr with rfl | hr'
        · exact Date.le_refl _
        · exact Date.le_trans (ih hq r hr') hle
      · simp [hle] at h
        subst h
        intro r hr
        rcases List.mem_cons.mp hr with rfl | hr'
        · rcases Date.le_total r.purchase_date m.purchase_date with h' | h'
          · exact h'
          · exact absurd h' hle
        · exact ih hq r hr'

/-- The `m.type` of the material row joined onto an order
(`JOIN materials m ON o.material_id = m.id`); `none` when the join drops the
order. -/
def material_type (materials : List Material) (mid : Nat) : Option String :=
  (materials.find? fun m => m.id == mid).map Material.type

/-- One order is inside the report window:
`o.order_date BETWEEN :start_date AND :end_date`. -/
def inRange (sd ed : Date) (o : Order) : Bool :=
  decide (Date.le sd o.order_date) && decide (Date.le o.order_date ed)

/-- The non-blend cost aggregate of `get_profit_summary`
(`app/routers/analytics.py`, the `latest_purchase` CTE): every in-window
order joined to a non-blend material contributes
`order_quantity * price_per_kg` with its own as-of price. -/
def regular_cost (purchases : List MaterialPurchase) (materials : List Material)
    (orders : List Order) (sd ed : Date) : ℚ :=
  ((orders.filter fun o =>
      inRange sd ed o &&
        (match material_type materials o.material_id with
         | some t => t != "blend"
         | none => false)).map
    fun o => o.quantity * resolve_unit_cost purchases o.material_id o.order_date).sum

/-- C1 -- For every order over a non-blend material, the profit reports'
cost resolver gives, per order row, the `price_per_kg` of the most recent
purchase of the order's material dated at or before the order's own
`order_date`; with no such purchase the resolved price is 0; and the
summary's non-blend cost is the sum over those orders of
`quantity * resolved price`. -/
theorem resolve_unit_cost_spec (purchases : List MaterialPurchase)
    (materials : List Material) (orders : List Order) (sd ed : Date)
    (mid : Nat) (as_of : Date) :
    (regular_cost purchases materials orders sd ed =
      ((orders.filter fun o =>
          inRange sd ed o &&
            (match material_type materials o.material_id with
             | some t => t != "blend"
             | none => false)).map
        fun o => o.quantity * resolve_unit_cost purchases o.material_id o.order_date).sum) ∧
    ((∀ p ∈ purchases, p.material_id = mid → ¬ Date.le p.purchase_date as_of) →
      resolve_unit_cost purchases mid as_of = 0) ∧
    (∀ p ∈ purchases, p.material_id = mid → Date.le p.purchase_date as_of →
      ∃ q ∈ purchases, q.material_id = mid ∧ Date.le q.purchase_date as_of ∧
        resolve_unit_cost purchases mid as_of = q.price_per_kg ∧
        ∀ r ∈ purchases, r.material_id = mid → Date.le r.purchase_date as_of →
          Date.le r.purchase_date q.purchase_date) := by
  refine ⟨rfl, ?_, ?_⟩
  · intro hnone
    unfold resolve_unit_cost
    have h : purchases.filter
        (fun p => p.material_id == mid && decide (Date.le p.purchase_date as_of)) = [] := by
      rw [List.filter_eq_nil_iff]
      intro p hp
      simp only [Bool.and_eq_true, beq_iff_eq, decide_eq_true_eq, not_and]
      intro heq
      exact hnone p hp heq
    rw [h]
    simp [latestPurchase]
  · intro p hp hpm hpd
    have hmem : p ∈ purchases.filter
        (fun p => p.material_id == mid && decide (Date.le p.purchase_date as_of)) := by
      rw [List.mem_filter]
      exact ⟨hp, by simp [hpm, hpd]⟩
    cases hlat : latestPurchase
        (purchases.filter fun p => p.material_id == mid && decide (Date.le p.purchase_date as_of)) with
    | none =>
      rw [latestPurchase_none_iff] at hlat
      rw [hlat] at hmem
      simp at hmem
    | some q =>
      have hqmem := latestPurchase_mem hlat
      rw [List.mem_filter] at hqmem
      obtain ⟨hq₁, hq₂⟩ := hqmem
      simp only [Bool.and_eq_true, beq_iff_eq, decide_eq_true_eq] at hq₂
      refine ⟨q, hq₁, hq₂.1, hq₂.2, ?_, ?_⟩
      · unfold resolve_unit_cost
        rw [hlat]
      · intro r hr hrm hrd
        have hrmem : r ∈ purchases.filter
            (fun p => p.material_id == mid && decide (Date.le p.purchase_date as_of)) := by
          rw [List.mem_filter]
          exact ⟨hr, by simp [hrm, hrd]⟩
        exact latestPurchase_maximal hlat r hrmem

/-- Concrete instantiation of the cost-resolver theorem: two purchases of
material 1 (price 100 on day 5, price 120 on day 8), an order dated day 10
resolves the later price 120. -/
theorem resolve_unit_cost_spec_witness :
    ∃ q ∈ [⟨1, 1, "A", 50, 100, 5000, ⟨2024, 1, 5⟩⟩,
           ⟨2, 1, "A", 50, 120, 6000, ⟨2024, 1, 8⟩⟩],
      MaterialPurchase.material_id q = 1 ∧ Date.le q.purchase_date ⟨2024, 1, 10⟩ ∧
      resolve_unit_cost
        [⟨1, 1, "A", 50, 100, 5000, ⟨2024, 1, 5⟩⟩,
         ⟨2, 1, "A", 50, 120, 6000, ⟨2024, 1, 8⟩⟩] 1 ⟨2024, 1, 10⟩ = q.price_per_kg ∧
      ∀ r ∈ [⟨1, 1, "A", 50, 100, 5000, ⟨2024, 1, 5⟩⟩,
             ⟨2, 1, "A", 50, 120, 6000, ⟨2024, 1, 8⟩⟩],
        MaterialPurchase.material_id r = 1 → Date.le r.purchase_date ⟨2024, 1, 10⟩ →
          Date.le r.purchase_date q.purchase_date := by
  exact (resolve_unit_cost_spec
    [⟨1, 1, "A", 50, 100, 5000, ⟨2024, 1, 5⟩⟩, ⟨2, 1, "A", 50, 120, 6000, ⟨2024, 1, 8⟩⟩]
    [] [] ⟨2024, 1, 1⟩ ⟨2024, 12, 31⟩ 1 ⟨2024, 1, 10⟩).2.2
    ⟨1, 1, "A", 50, 100, 5000, ⟨2024, 1, 5⟩⟩ (by simp) rfl (by decide)

/-- One entry of a material-requirement batch: the dicts
`{"id": ..., "quantity": ...}` built by `calculate_required_materials`
(`main.py`). -/
structure ReqMaterial where
  id : Nat
  quantity : ℚ
deriving DecidableEq, Repr

/-- The error taxonomy of the embedded endpoints.  Each constructor stands
for one `HTTPException` raised in `main.py`, carrying the data interpolated
into its Korean detail message. -/
inductive ApiError where
  | materialNotFound
  | rawMaterialNotFound (name : String)
  | inventoryNotFound (material_id : Nat)
  | inventoryRowNotFound (inventory_id : Nat)
  | orderNotFound
  | purchaseNotFound
  | insufficientStock (material_name : String) (required : ℚ) (available : ℚ)
  | insufficientInventory
deriving DecidableEq, Repr

/-- `db.query(models.Inventory).filter(models.Inventory.material_id == mid).first()`,
reduced to the row's quantity. -/
def invLookup : List Inventory → Nat → Option ℚ
  | [], _ => none
  | r :: rs, mid => if r.material_id = mid then some r.quantity else invLookup rs mid

/-- Assigning `inventory.quantity = q` on the first row of the given
material (the `material_id` column is unique). -/
def invSet : List Inventory → Nat → ℚ → List Inventory
  | [], _, _ => []
  | r :: rs, mid, q =>
    if r.material_id = mid then { r with quantity := q } :: rs
    else r :: invSet rs mid q

theorem invLookup_invSet_self (inv : List Inventory) (mid : Nat) (q : ℚ) :
    invLookup (invSet inv mid q) mid = (invLookup inv mid).map fun _ => q := by
  induction inv with
  | nil => simp [invLookup, invSet]
  | cons r rs ih =>
    by_cases h : r.material_id = mid
    · simp [invLookup, invSet, h]
    · simp [invLookup, invSet, h, ih]

theorem invLookup_invSet_ne (inv : List Inventory) {mid mid' : Nat} (q : ℚ)
    (h : mid' ≠ mid) :
    invLookup (invSet inv mid q) mid' = invLookup inv mid' := by
  induction inv with
  | nil => simp [invLookup, invSet]
  | cons r rs ih =>
    by_cases hr : r.material_id = mid
    · simp [invLookup, invSet, hr, Ne.symm h]
    · by_cases hr' : r.material_id = mid'
      · simp [invLookup, invSet, hr, hr', h]
      · simp [invLookup, invSet, hr, hr', ih]

theorem invLookup_invSet_none_iff (inv : List Inventory) (a mid : Nat) (q : ℚ) :
    invLookup (invSet inv a q) mid = none ↔ invLookup inv mid = none := by
  by_cases h : mid = a
  · subst h
    rw [invLookup_invSet_self]
    cases invLookup inv mid <;> simp
  · rw [invLookup_invSet_ne inv q h]

theorem invSet_quantity_mem {inv : List Inventory} {mid : Nat} {q : ℚ}
    {r' : Inventory} (h : r' ∈ invSet inv mid q) :
    r'.quantity = q ∨ ∃ r ∈ inv, r'.quantity = r.quantity := by
  induction inv with
  | nil => simp [invSet] at h
  | cons r rs ih =>
    by_cases hr : r.material_id = mid
    · simp only [invSet, hr, if_pos rfl] at h
      rcases List.mem_cons.mp h with rfl | h'
      · left; rfl
      · right; exact ⟨r', List.mem_cons_of_mem _ h', rfl⟩
    · simp only [invSet, hr, if_neg hr] at h
      rcases List.mem_cons.mp h with rfl | h'
      · right; exact ⟨r', List.mem_cons_self _ _, rfl⟩
      · rcases ih h' with h'' | ⟨s, hs, hq⟩
        · left; exact h''
        · right; exact ⟨s, List.mem_cons_of_mem _ hs, hq⟩

/-- The material name interpolated into the insufficient-stock message
(with the source's `f"Material {id}"` fallback when the row is gone). -/
def materialName (materials : List Material) (mid : Nat) : String :=
  match materials.find? fun m => m.id == mid with
  | some m => m.name
  | none => "Material " ++ toString mid

/-- The `multiplier = 1 if is_increase else -1` of
`update_inventory_quantities` (`main.py`). -/
def signQ (is_increase : Bool) : ℚ :=
  if is_increase then 1 else -1

/-- `update_inventory_quantities` (`main.py`): walk the requirement batch,
rejecting any entry whose new quantity `current + quantity * multiplier`
would be negative.  An `Except.error` models the raise plus `db.rollback()`
in its handler (and in every caller), under which none of the batch's
mutations is committed. -/
def update_inventory_quantities (materials : List Material) :
    List ReqMaterial → Bool → List Inventory → Except ApiError (List Inventory)
  | [], _, inv => .ok inv
  | r :: rs, is_increase, inv =>
    match invLookup inv r.id with
    | none => .error (.inventoryNotFound r.id)
    | some cur =>
      if cur + r.quantity * signQ is_increase < 0 then
        .error (.insufficientStock (materialName materials r.id) r.quantity cur)
      else
        update_inventory_quantities materials rs is_increase
          (invSet inv r.id (cur + r.quantity * signQ is_increase))

/-- Net quantity a batch requires of one material (entries of other
materials filtered out). -/
def reqSum (reqs : List ReqMaterial) (mid : Nat) : ℚ :=
  ((reqs.filter fun r => r.id == mid).map ReqMaterial.quantity).sum

theorem reqSum_cons_self {r : ReqMaterial} {mid : Nat} (rs : List ReqMaterial)
    (h : r.id = mid) : reqSum (r :: rs) mid = r.quantity + reqSum rs mid := by
  simp [reqSum, h]

theorem reqSum_cons_ne {r : ReqMaterial} {mid : Nat} (rs : List ReqMaterial)
    (h : r.id ≠ mid) : reqSum (r :: rs) mid = reqSum rs mid := by
  simp [reqSum, h]

theorem update_ok_lookup {materials : List Material} {reqs : List ReqMaterial}
    {incr : Bool} {inv inv' : List Inventory}
    (h : update_inventory_quantities materials reqs incr inv = .ok inv') (mid : Nat) :
    invLookup inv' mid =
      (invLookup inv mid).map fun c => c + signQ incr * reqSum reqs mid := by
  induction reqs generalizing inv with
  | nil =>
    simp only [update_inventory_quantities, Except.ok.injEq] at h
    subst h
    cases invLookup inv mid <;> simp [reqSum]
  | cons r rs ih =>
    simp only [update_inventory_quantities] at h
    split at h
    · cases h
    · rename_i cur hl
      split at h
      · cases h
      · rename_i hneg
        rw [ih h]
        by_cases hmid : r.id = mid
        · subst hmid
          rw [invLookup_invSet_self, hl, reqSum_cons_self rs rfl]
          simp only [Option.map_some']
          congr 1
          ring
        · rw [invLookup_invSet_ne inv _ fun he => hmid he.symm,
            reqSum_cons_ne rs hmid]

theorem update_error_cases {materials : List Material} {reqs : List ReqMaterial}
    {incr : Bool} {inv : List Inventory} {e : ApiError}
    (h : update_inventory_quantities materials reqs incr inv = .error e) :
    (∃ name req avail, e = .insufficientStock name req avail ∧
       avail + req * signQ incr < 0 ∧
       ∃ r ∈ reqs, req = r.quantity ∧ name = materialName materials r.id) ∨
    (∃ mid, e = .inventoryNotFound mid ∧ invLookup inv mid = none ∧
       ∃ r ∈ reqs, r.id = mid) := by
  induction reqs generalizing inv with
  | nil => cases h
  | cons r rs ih =>
    simp only [update_inventory_quantities] at h
    split at h
    · rename_i hl
      right
      injection h with h'
      exact ⟨r.id, h'.symm, hl, r, List.mem_cons_self _ _, rfl⟩
    · rename_i cur hl
      split at h
      · rename_i hneg
        left
        injection h with h'
        exact ⟨materialName materials r.id, r.quantity, cur, h'.symm, hneg,
          r, List.mem_cons_self _ _, rfl, rfl⟩
      · rename_i hneg
        rcases ih h with ⟨name, req, avail, he, hlt, r', hr', hq, hn⟩ |
          ⟨mid, he, hnone, r', hr', hid⟩
        · exact Or.inl ⟨name, req, avail, he, hlt, r', List.mem_cons_of_mem _ hr', hq, hn⟩
        · exact Or.inr ⟨mid, he, (invLookup_invSet_none_iff inv r.id mid _).mp hnone,
            r', List.mem_cons_of_mem _ hr', hid⟩

/-- C3 -- A requirement batch is all-or-nothing: either every entry is
applied (each quantity moves by exactly the batch's signed net requirement
for it), or the batch is rejected -- with an insufficient-stock error
carrying the material's name, the required amount and the available amount
whenever some entry's new quantity `current + sign*quantity` would be
negative -- and, rejection modelling raise plus rollback, no entry of the
batch is applied: the caller's inventory is the unchanged pre-batch state. -/
theorem update_inventory_quantities_all_or_nothing
    (materials : List Material) (reqs : List ReqMaterial) (is_increase : Bool)
    (inv : List Inventory) :
    (∃ inv', update_inventory_quantities materials reqs is_increase inv = .ok inv' ∧
       ∀ mid, invLookup inv' mid =
         (invLookup inv mid).map fun c => c + signQ is_increase * reqSum reqs mid) ∨
    (∃ name req avail,
       update_inventory_quantities materials reqs is_increase inv =
         .error (.insufficientStock name req avail) ∧
       avail + req * signQ is_increase < 0 ∧
       ∃ r ∈ reqs, req = r.quantity ∧ name = materialName materials r.id) ∨
    (∃ mid,
       update_inventory_quantities materials reqs is_increase inv =
         .error (.inventoryNotFound mid) ∧
       invLookup inv mid = none ∧ ∃ r ∈ reqs, r.id = mid) := by
  cases hres : update_inventory_quantities materials reqs is_increase inv with
  | ok inv' => exact Or.inl ⟨inv', rfl, update_ok_lookup hres⟩
  | error e =>
    rcases update_error_cases hres with ⟨name, req, avail, he, hlt, hr⟩ |
      ⟨mid, he, hnone, hr⟩
    · exact Or.inr (Or.inl ⟨name, req, avail, he ▸ rfl, hlt, hr⟩)
    · exact Or.inr (Or.inr ⟨mid, he ▸ rfl, hnone, hr⟩)

/-- Concrete instantiation of the all-or-nothing theorem: a two-entry batch
whose second entry over-draws material 2 is rejected with the
insufficient-stock error naming that material, the 7 kg required and the
5 kg available. -/
theorem update_inventory_quantities_all_or_nothing_witness :
    (∃ inv', update_inventory_quantities [⟨1, "원두A", "regular"⟩, ⟨2, "원두B", "regular"⟩]
        [⟨1, 3⟩, ⟨2, 7⟩] false [⟨10, 1, 4⟩, ⟨11, 2, 5⟩] = .ok inv' ∧
       ∀ mid, invLookup inv' mid =
         (invLookup [⟨10, 1, 4⟩, ⟨11, 2, 5⟩] mid).map
           fun c => c + signQ false * reqSum [⟨1, 3⟩, ⟨2, 7⟩] mid) ∨
    (∃ name req avail,
       update_inventory_quantities [⟨1, "원두A", "regular"⟩, ⟨2, "원두B", "regular"⟩]
         [⟨1, 3⟩, ⟨2, 7⟩] false [⟨10, 1, 4⟩, ⟨11, 2, 5⟩] =
         .error (.insufficientStock name req avail) ∧
       avail + req * signQ false < 0 ∧
       ∃ r ∈ [(⟨1, 3⟩ : ReqMaterial), ⟨2, 7⟩], req = r.quantity ∧
         name = materialName [⟨1, "원두A", "regular"⟩, ⟨2, "원두B", "regular"⟩] r.id) ∨
    (∃ mid,
       update_inventory_quantities [⟨1, "원두A", "regular"⟩, ⟨2, "원두B", "regular"⟩]
         [⟨1, 3⟩, ⟨2, 7⟩] false [⟨10, 1, 4⟩, ⟨11, 2, 5⟩] =
         .error (.inventoryNotFound mid) ∧
       invLookup [⟨10, 1, 4⟩, ⟨11, 2, 5⟩] mid = none ∧
       ∃ r ∈ [(⟨1, 3⟩ : ReqMaterial), ⟨2, 7⟩], r.id = mid) :=
  update_inventory_quantities_all_or_nothing
    [⟨1, "원두A", "regular"⟩, ⟨2, "원두B", "regular"⟩]
    [⟨1, 3⟩, ⟨2, 7⟩] false [⟨10, 1, 4⟩, ⟨11, 2, 5⟩]

/-- The fixed origin table of `calculate_required_materials` (`main.py`):
four named origins at 55%, 20%, 15% and 10% of the total raw requirement
(the source's `ratios` dict, in its insertion order). -/
def origin_mix : List (String × ℚ) :=
  [("브라질", (0.55 : ℚ)), ("콜롬비아", (0.20 : ℚ)),
   ("과테말라", (0.15 : ℚ)), ("시다모", (0.10 : ℚ))]

/-- The blend branch of `calculate_required_materials`: each named origin
must exist as a `single_origin` material, else the 400 error naming it is
raised; a found origin contributes `total_required * ratio`. -/
def blendRequirements (materials : List Material) (total_required : ℚ) :
    List (String × ℚ) → Except ApiError (List ReqMaterial)
  | [] => .ok []
  | (name, r) :: rest =>
    match materials.find? fun m => m.name == name && m.type == "single_origin" with
    | some raw =>
      match blendRequirements materials total_required rest with
      | .ok rs => .ok (⟨raw.id, total_required * r⟩ :: rs)
      | .error e => .error e
    | none => .error (.rawMaterialNotFound name)

/-- The type dispatch of `calculate_required_materials` (`main.py`):
blend orders expand to `quantity * 1.2` split over the fixed origin table,
single-origin orders to `quantity * 1.23` of the material itself, anything
else to `quantity` of the material itself. -/
def expandRequired (materials : List Material) (material_id : Nat) (quantity : ℚ) :
    Except ApiError (List ReqMaterial) :=
  match materials.find? fun m => m.id == material_id with
  | none => .error .materialNotFound
  | some material =>
    if material.type = "blend" then
      blendRequirements materials (quantity * (1.2 : ℚ)) origin_mix
    else if material.type = "single_origin" then
      .ok [⟨material_id, quantity * (1.23 : ℚ)⟩]
    else
      .ok [⟨material_id, quantity⟩]

/-- The `check_inventory` pass of `calculate_required_materials`: each
required material must have an inventory row with at least the required
quantity. -/
def checkInventoryReqs (materials : List Material) (inv : List Inventory) :
    List ReqMaterial → Except ApiError Unit
  | [] => .ok ()
  | r :: rs =>
    match invLookup inv r.id with
    | none => .error (.inventoryNotFound r.id)
    | some cur =>
      if cur < r.quantity then
        .error (.insufficientStock (materialName materials r.id) r.quantity cur)
      else checkInventoryReqs materials inv rs

/-- `calculate_required_materials` (`main.py`): compute the type-dependent
raw-material expansion, then (only when `check_inventory`, i.e. on the
order-creation path) validate it against current stock. -/
def calculate_required_materials (materials : List Material) (inv : List Inventory)
    (material_id : Nat) (quantity : ℚ) (check_inventory : Bool) :
    Except ApiError (List ReqMaterial) :=
  match expandRequired materials material_id quantity with
  | .error e => .error e
  | .ok reqs =>
    if check_inventory then
      match checkInventoryReqs materials inv reqs with
      | .ok _ => .ok reqs
      | .error e => .error e
    else .ok reqs

/-- C5 -- The raw-material requirement expansion is type-dependent: a blend
order of quantity q expands to the four fixed origins at 0.55, 0.20, 0.15
and 0.10 of the total q × 1.2; a single_origin order to q × 1.23 of the
material itself; a regular (or any other) order to q × 1 of the material
itself. -/
theorem calculate_required_materials_type_dispatch
    (materials : List Material) (inv : List Inventory) (mid : Nat) (q : ℚ)
    (m : Material) (hfind : materials.find? (fun x => x.id == mid) = some m) :
    (m.type = "blend" →
      ∀ b c g s : Material,
        materials.find? (fun x => x.name == "브라질" && x.type == "single_origin") = some b →
        materials.find? (fun x => x.name == "콜롬비아" && x.type == "single_origin") = some c →
        materials.find? (fun x => x.name == "과테말라" && x.type == "single_origin") = some g →
        materials.find? (fun x => x.name == "시다모" && x.type == "single_origin") = some s →
        calculate_required_materials materials inv mid q false =
          .ok [⟨b.id, q * (1.2 : ℚ) * (0.55 : ℚ)⟩, ⟨c.id, q * (1.2 : ℚ) * (0.20 : ℚ)⟩,
               ⟨g.id, q * (1.2 : ℚ) * (0.15 : ℚ)⟩, ⟨s.id, q * (1.2 : ℚ) * (0.10 : ℚ)⟩] ∧
        q * (1.2 : ℚ) * (0.55 : ℚ) + q * (1.2 : ℚ) * (0.20 : ℚ) +
          q * (1.2 : ℚ) * (0.15 : ℚ) + q * (1.2 : ℚ) * (0.10 : ℚ) = q * (1.2 : ℚ)) ∧
    (m.type = "single_origin" →
      calculate_required_materials materials inv mid q false = .ok [⟨mid, q * (1.23 : ℚ)⟩]) ∧
    (m.type ≠ "blend" → m.type ≠ "single_origin" →
      calculate_required_materials materials inv mid q false = .ok [⟨mid, q⟩]) := by
  refine ⟨?_, ?_, ?_⟩
  · intro ht b c g s hb hc hg hs
    refine ⟨?_, by ring⟩
    simp [calculate_required_materials, expandRequired, origin_mix, blendRequirements,
      hfind, ht, hb, hc, hg, hs]
  · intro ht
    simp [calculate_required_materials, expandRequired, hfind, ht]
  · intro h1 h2
    simp [calculate_required_materials, expandRequired, hfind, if_neg h1, if_neg h2]

/-- Concrete instantiation of the expansion theorem: a 10 kg blend order
over a catalog holding the blend and all four origins expands to
6.6 / 2.4 / 1.8 / 1.2 kg of the origins, totalling 12 kg. -/
theorem calculate_required_materials_type_dispatch_witness :
    calculate_required_materials
      [⟨1, "블렌딩원두", "blend"⟩, ⟨2, "브라질", "single_origin"⟩,
       ⟨3, "콜롬비아", "single_origin"⟩, ⟨4, "과테말라", "single_origin"⟩,
       ⟨5, "시다모", "single_origin"⟩] [] 1 10 false =
      .ok [⟨2, 10 * (1.2 : ℚ) * (0.55 : ℚ)⟩, ⟨3, 10 * (1.2 : ℚ) * (0.20 : ℚ)⟩,
           ⟨4, 10 * (1.2 : ℚ) * (0.15 : ℚ)⟩, ⟨5, 10 * (1.2 : ℚ) * (0.10 : ℚ)⟩] ∧
    10 * (1.2 : ℚ) * (0.55 : ℚ) + 10 * (1.2 : ℚ) * (0.20 : ℚ) +
      10 * (1.2 : ℚ) * (0.15 : ℚ) + 10 * (1.2 : ℚ) * (0.10 : ℚ) = 10 * (1.2 : ℚ) :=
  (calculate_required_materials_type_dispatch
    [⟨1, "블렌딩원두", "blend"⟩, ⟨2, "브라질", "single_origin"⟩,
     ⟨3, "콜롬비아", "single_origin"⟩, ⟨4, "과테말라", "single_origin"⟩,
     ⟨5, "시다모", "single_origin"⟩] [] 1 10
    ⟨1, "블렌딩원두", "blend"⟩ (by decide)).1 rfl
    ⟨2, "브라질", "single_origin"⟩ ⟨3, "콜롬비아", "single_origin"⟩
    ⟨4, "과테말라", "single_origin"⟩ ⟨5, "시다모", "single_origin"⟩
    (by decide) (by decide) (by decide) (by decide)

theorem signQ_true : signQ true = 1 := rfl

theorem signQ_false : signQ false = -1 := rfl

theorem calc_ok_expand {materials : List Material} {inv : List Inventory}
    {mid : Nat} {q : ℚ} {reqs : List ReqMaterial}
    (h : calculate_required_materials materials inv mid q true = .ok reqs) :
    expandRequired materials mid q = .ok reqs := by
  unfold calculate_required_materials at h
  split at h
  · cases h
  · rename_i reqs' hexp
    rw [if_pos rfl] at h
    split at h
    · cases h; exact hexp
    · cases h

theorem calc_false_of_ok {materials : List Material} {inv : List Inventory}
    {mid : Nat} {q : ℚ} {reqs : List ReqMaterial}
    (h : calculate_required_materials materials inv mid q true = .ok reqs)
    (inv₂ : List Inventory) :
    calculate_required_materials materials inv₂ mid q false = .ok reqs := by
  unfold calculate_required_materials
  rw [calc_ok_expand h]
  simp

theorem origin_mix_nonneg : ∀ p ∈ origin_mix, 0 ≤ p.2 := by
  intro p hp
  simp only [origin_mix, List.mem_cons, List.not_mem_nil, or_false] at hp
  rcases hp with rfl | rfl | rfl | rfl <;> norm_num

theorem blendRequirements_nonneg {materials : List Material} {t : ℚ}
    {mix : List (String × ℚ)} {rs : List ReqMaterial}
    (h : blendRequirements materials t mix = .ok rs) (ht : 0 ≤ t)
    (hmix : ∀ p ∈ mix, 0 ≤ p.2) : ∀ r ∈ rs, 0 ≤ r.quantity := by
  induction mix generalizing rs with
  | nil => cases h; simp
  | cons p rest ih =>
    obtain ⟨name, ratio_⟩ := p
    simp only [blendRequirements] at h
    split at h
    · rename_i raw hraw
      split at h
      · rename_i rs' hrs'
        cases h
        intro r hr
        rcases List.mem_cons.mp hr with rfl | hr'
        · exact mul_nonneg ht (hmix _ (List.mem_cons_self _ _))
        · exact ih hrs' (fun p hp => hmix p (List.mem_cons_of_mem _ hp)) r hr'
      · cases h
    · cases h

theorem expandRequired_nonneg {materials : List Material} {mid : Nat} {q : ℚ}
    {reqs : List ReqMaterial} (h : expandRequired materials mid q = .ok reqs)
    (hq : 0 ≤ q) : ∀ r ∈ reqs, 0 ≤ r.quantity := by
  unfold expandRequired at h
  split at h
  · cases h
  · rename_i material hm
    split at h
    · exact blendRequirements_nonneg h
        (mul_nonneg hq (by norm_num)) origin_mix_nonneg
    · split at h
      · cases h
        intro r hr
        simp at hr
        subst hr
        exact mul_nonneg hq (by norm_num)
      · cases h
        intro r hr
        simp at hr
        subst hr
        exact hq

theorem reqSum_eq_zero {rs : List ReqMaterial} {mid : Nat}
    (h : ∀ r ∈ rs, r.id ≠ mid) : reqSum rs mid = 0 := by
  unfold reqSum
  have : rs.filter (fun r => r.id == mid) = [] := by
    rw [List.filter_eq_nil_iff]
    intro r hr
    simp [h r hr]
  rw [this]
  simp

theorem update_ok_touched_nonneg {materials : List Material}
    {reqs : List ReqMaterial} {incr : Bool} {inv inv' : List Inventory}
    (h : update_inventory_quantities materials reqs incr inv = .ok inv') :
    ∀ r ∈ reqs, ∃ c, invLookup inv' r.id = some c ∧ 0 ≤ c := by
  induction reqs generalizing inv with
  | nil => simp
  | cons r rs ih =>
    simp only [update_inventory_quantities] at h
    split at h
    · cases h
    · rename_i cur hl
      split at h
      · cases h
      · rename_i hneg
        intro r' hr'
        rcases List.mem_cons.mp hr' with rfl | hmem
        · by_cases hid : ∃ r'' ∈ rs, r''.id = r'.id
          · obtain ⟨r'', hr'', hid''⟩ := hid
            obtain ⟨c, hc, hcn⟩ := ih h r'' hr''
            exact ⟨c, hid'' ▸ hc, hcn⟩
          · push_neg at hid
            have hz : reqSum rs r'.id = 0 := reqSum_eq_zero hid
            have hlook := update_ok_lookup h r'.id
            rw [invLookup_invSet_self, hl, hz] at hlook
            simp only [Option.map_some', mul_zero, add_zero] at hlook
            exact ⟨_, hlook, not_lt.mp hneg⟩
        · exact ih h r' hmem

theorem update_increase_ok {materials : List Material} {reqs : List ReqMaterial}
    {inv : List Inventory}
    (hq : ∀ r ∈ reqs, 0 ≤ r.quantity)
    (hex : ∀ r ∈ reqs, ∃ c, invLookup inv r.id = some c ∧ 0 ≤ c) :
    ∃ inv'', update_inventory_quantities materials reqs true inv = .ok inv'' := by
  induction reqs generalizing inv with
  | nil => exact ⟨inv, rfl⟩
  | cons r rs ih =>
    obtain ⟨c, hc, hcn⟩ := hex r (List.mem_cons_self _ _)
    have hnewnn : 0 ≤ c + r.quantity * signQ true := by
      rw [signQ_true, mul_one]
      exact add_nonneg hcn (hq r (List.mem_cons_self _ _))
    have hex' : ∀ r' ∈ rs, ∃ c',
        invLookup (invSet inv r.id (c + r.quantity * signQ true)) r'.id = some c' ∧
          0 ≤ c' := by
      intro r' hr'
      by_cases hid : r'.id = r.id
      · rw [hid, invLookup_invSet_self, hc]
        exact ⟨c + r.quantity * signQ true, by simp, hnewnn⟩
      · rw [invLookup_invSet_ne inv _ hid]
        exact hex r' (List.mem_cons_of_mem _ hr')
    obtain ⟨inv'', h''⟩ := ih (fun r' hr' => hq r' (List.mem_cons_of_mem _ hr')) hex'
    refine ⟨inv'', ?_⟩
    simp only [update_inventory_quantities, hc]
    rw [if_neg (not_lt.mpr hnewnn)]
    exact h''

/-- C6 -- Deleting an order exactly inverts creating it, as long as the
material's type is unchanged in between (same catalog, so `delete_order`
recomputes the same expansion with `check_inventory=False`): after the
creation's sign -1 application succeeds, the deletion's sign +1 application
of the same expansion succeeds and restores every inventory quantity to its
value before the order was created. -/
theorem order_delete_inverts_create
    (materials : List Material) (inv inv' : List Inventory) (mid : Nat) (q : ℚ)
    (reqs : List ReqMaterial) (hq : 0 ≤ q)
    (hexp : calculate_required_materials materials inv mid q true = .ok reqs)
    (hcreate : update_inventory_quantities materials reqs false inv = .ok inv') :
    calculate_required_materials materials inv' mid q false = .ok reqs ∧
    ∃ inv'', update_inventory_quantities materials reqs true inv' = .ok inv'' ∧
      ∀ m, invLookup inv'' m = invLookup inv m := by
  refine ⟨calc_false_of_ok hexp inv', ?_⟩
  have hnonneg := expandRequired_nonneg (calc_ok_expand hexp) hq
  obtain ⟨inv'', h''⟩ :=
    @update_increase_ok materials reqs inv' hnonneg (update_ok_touched_nonneg hcreate)
  refine ⟨inv'', h'', ?_⟩
  intro m
  rw [update_ok_lookup h'' m, update_ok_lookup hcreate m]
  cases invLookup inv m with
  | none => simp
  | some c =>
    simp only [Option.map_some']
    congr 1
    rw [signQ_true, signQ_false]
    ring

/-- Concrete instantiation of the inverse theorem: creating then deleting a
2 kg single-origin order over a 10 kg stock returns the inventory to its
original quantities. -/
theorem order_delete_inverts_create_witness :
    calculate_required_materials [⟨1, "콜롬비아", "single_origin"⟩]
      [⟨7, 1, (7.54 : ℚ)⟩] 1 2 false = .ok [⟨1, 2 * (1.23 : ℚ)⟩] ∧
    ∃ inv'', update_inventory_quantities [⟨1, "콜롬비아", "single_origin"⟩]
        [⟨1, 2 * (1.23 : ℚ)⟩] true [⟨7, 1, (7.54 : ℚ)⟩] = .ok inv'' ∧
      ∀ m, invLookup inv'' m = invLookup [⟨7, 1, (10 : ℚ)⟩] m :=
  order_delete_inverts_create [⟨1, "콜롬비아", "single_origin"⟩]
    [⟨7, 1, (10 : ℚ)⟩] [⟨7, 1, (7.54 : ℚ)⟩] 1 2 [⟨1, 2 * (1.23 : ℚ)⟩]
    (by norm_num)
    (by
      simp [calculate_required_materials, expandRequired, checkInventoryReqs, invLookup]
      norm_num)
    (by
      simp [update_inventory_quantities, invLookup, invSet, signQ, materialName]
      rw [if_neg (by norm_num)]
      norm_num)

/-- The request body of POST /orders/ (`schemas.OrderCreate`). -/
structure OrderCreate where
  customer_name : String
  material_id : Nat
  quantity : ℚ
  price_per_kg : ℚ
  order_date : Date
deriving DecidableEq, Repr

/-- The request body of POST /material-purchases/
(`schemas.MaterialPurchaseCreate`). -/
structure PurchaseCreate where
  material_id : Nat
  quantity_kg : ℚ
  price_per_kg : ℚ
  total_price : Option ℚ
  purchase_date : Date
deriving DecidableEq, Repr

/-- The database state an API request reads and writes: the four tables the
embedded endpoints touch. -/
structure DBState where
  materials : List Material
  inventory : List Inventory
  orders : List Order
  purchases : List MaterialPurchase
deriving DecidableEq, Repr

/-- `create_order` (`main.py`, POST /orders/): compute and stock-check the
requirement expansion, snapshot the material name onto the new order row,
decrement inventory and commit both together; an error models raise plus
rollback, leaving the caller's state the unchanged pre-call state (so no
order row and no inventory change is committed). -/
def create_order (s : DBState) (oc : OrderCreate) (new_id : Nat) :
    Except ApiError DBState :=
  match calculate_required_materials s.materials s.inventory oc.material_id
      oc.quantity true with
  | .error e => .error e
  | .ok reqs =>
    match s.materials.find? fun m => m.id == oc.material_id with
    | none => .error .materialNotFound
    | some material =>
      match update_inventory_quantities s.materials reqs false s.inventory with
      | .error e => .error e
      | .ok inv' =>
        .ok { s with
          inventory := inv'
          orders := s.orders ++
            [⟨new_id, oc.customer_name, oc.material_id, material.name, oc.quantity,
              oc.price_per_kg, oc.quantity * oc.price_per_kg, oc.order_date⟩] }

/-- `delete_order` (`main.py`, DELETE /orders/{id}): recompute the expansion
from the material's current type with `check_inventory=False`, restore
inventory with sign +1, and remove the order row. -/
def delete_order (s : DBState) (order_id : Nat) : Except ApiError DBState :=
  match s.orders.find? fun o => o.id == order_id with
  | none => .error .orderNotFound
  | some order =>
    match calculate_required_materials s.materials s.inventory order.material_id
        order.quantity false with
    | .error e => .error e
    | .ok reqs =>
      match update_inventory_quantities s.materials reqs true s.inventory with
      | .error e => .error e
      | .ok inv' =>
        .ok { s with
          inventory := inv'
          orders := s.orders.filter (fun o => decide (o.id ≠ order_id)) }

/-- `create_material_purchase` (`main.py`, POST /material-purchases/): a
falsy `total_price` (absent or 0) is recomputed as `quantity_kg *
price_per_kg`; inventory is increased, a missing row being created with the
purchased quantity.  No negativity check is performed on the increment. -/
def create_material_purchase (s : DBState) (pc : PurchaseCreate)
    (new_id new_inv_id : Nat) : Except ApiError DBState :=
  match s.materials.find? fun m => m.id == pc.material_id with
  | none => .error .materialNotFound
  | some material =>
    .ok { s with
      purchases := s.purchases ++
        [⟨new_id, pc.material_id, material.name, pc.quantity_kg, pc.price_per_kg,
          (match pc.total_price with
           | some t => if t = 0 then pc.quantity_kg * pc.price_per_kg else t
           | none => pc.quantity_kg * pc.price_per_kg),
          pc.purchase_date⟩]
      inventory :=
        (match invLookup s.inventory pc.material_id with
         | some cur => invSet s.inventory pc.material_id (cur + pc.quantity_kg)
         | none => s.inventory ++ [⟨new_inv_id, pc.material_id, pc.quantity_kg⟩]) }

/-- `delete_material_purchase` (`main.py`, DELETE /material-purchases/{id}):
the deletion is refused with the 400 "재고 수량이 부족합니다" error unless
current stock covers the purchased quantity; a material without an
inventory row skips the stock update and deletes the purchase anyway. -/
def delete_material_purchase (s : DBState) (purchase_id : Nat) :
    Except ApiError DBState :=
  match s.purchases.find? fun p => p.id == purchase_id with
  | none => .error .purchaseNotFound
  | some purchase =>
    match invLookup s.inventory purchase.material_id with
    | some cur =>
      if purchase.quantity_kg ≤ cur then
        .ok { s with
          inventory := invSet s.inventory purchase.material_id
            (cur - purchase.quantity_kg)
          purchases := s.purchases.filter (fun p => decide (p.id ≠ purchase_id)) }
      else .error .insufficientInventory
    | none =>
      .ok { s with purchases := s.purchases.filter (fun p => decide (p.id ≠ purchase_id)) }

/-- `delete_purchase` (`main.py`, DELETE /purchases/{id}/): the legacy
variant never fails on stock; it clamps the inventory quantity at 0
(`max(0, quantity - quantity_kg)`) and deletes the purchase record. -/
def delete_purchase (s : DBState) (purchase_id : Nat) : Except ApiError DBState :=
  match s.purchases.find? fun p => p.id == purchase_id with
  | none => .error .purchaseNotFound
  | some purchase =>
    .ok { s with
      inventory :=
        (match invLookup s.inventory purchase.material_id with
         | some cur => invSet s.inventory purchase.material_id
             (max 0 (cur - purchase.quantity_kg))
         | none => s.inventory)
      purchases := s.purchases.filter (fun p => decide (p.id ≠ purchase_id)) }

/-- Assigning a quantity to the inventory row with the given primary key,
as PUT /inventories/{id}/quantity/ does. -/
def invSetById : List Inventory → Nat → ℚ → List Inventory
  | [], _, _ => []
  | r :: rs, iid, q =>
    if r.id = iid then { r with quantity := q } :: rs else r :: invSetById rs iid q

/-- `update_inventory_quantity` (`main.py`, PUT /inventories/{id}/quantity/):
the requested value is written as given -- the endpoint performs no
negativity (or any other) check on it. -/
def update_inventory_quantity (s : DBState) (inventory_id : Nat) (quantity : ℚ) :
    Except ApiError DBState :=
  if (s.inventory.find? fun r => r.id == inventory_id).isSome then
    .ok { s with inventory := invSetById s.inventory inventory_id quantity }
  else .error (.inventoryRowNotFound inventory_id)

theorem blendRequirements_missing {materials : List Material} {t : ℚ}
    {mix : List (String × ℚ)}
    (h : ∃ p ∈ mix, materials.find?
      (fun m => m.name == p.1 && m.type == "single_origin") = none) :
    ∃ n, blendRequirements materials t mix = .error (.rawMaterialNotFound n) ∧
      (∃ r, (n, r) ∈ mix) ∧
      materials.find? (fun m => m.name == n && m.type == "single_origin") = none := by
  induction mix with
  | nil => simp at h
  | cons p rest ih =>
    obtain ⟨name, rq⟩ := p
    cases hf : materials.find? (fun m => m.name == name && m.type == "single_origin") with
    | none =>
      refine ⟨name, ?_, ⟨rq, List.mem_cons_self _ _⟩, hf⟩
      simp only [blendRequirements, hf]
    | some raw =>
      obtain ⟨p', hp', hnone⟩ := h
      rcases List.mem_cons.mp hp' with heq | hmem
      · subst heq; simp [hf] at hnone
      · obtain ⟨n, hrec, ⟨r', hin⟩, hn⟩ := ih ⟨p', hmem, hnone⟩
        refine ⟨n, ?_, ⟨r', List.mem_cons_of_mem _ hin⟩, hn⟩
        simp only [blendRequirements, hf, hrec]

/-- C10 -- Creating an order for a blend material whose fixed origin table
names a raw material that does not exist as a `single_origin` material
fails with the 400 error naming that missing origin -- a hard failure,
unlike the 0-price fallback -- and, the error modelling raise plus
rollback, no order row is created and no inventory is changed. -/
theorem create_order_missing_origin_fails
    (s : DBState) (oc : OrderCreate) (new_id : Nat) (m : Material)
    (hfind : s.materials.find? (fun x => x.id == oc.material_id) = some m)
    (htype : m.type = "blend")
    (hmissing : ∃ p ∈ origin_mix, s.materials.find?
      (fun x => x.name == p.1 && x.type == "single_origin") = none) :
    ∃ n, create_order s oc new_id = .error (.rawMaterialNotFound n) ∧
      (∃ r, (n, r) ∈ origin_mix) ∧
      s.materials.find? (fun x => x.name == n && x.type == "single_origin") = none := by
  obtain ⟨n, hrec, hin, hn⟩ :=
    @blendRequirements_missing s.materials (oc.quantity * (1.2 : ℚ)) origin_mix hmissing
  refine ⟨n, ?_, hin, hn⟩
  simp [create_order, calculate_required_materials, expandRequired, hfind, htype, hrec]

/-- Concrete instantiation of the missing-origin theorem: a catalog holding
the blend and only the 브라질 origin makes order creation fail naming a
missing origin. -/
theorem create_order_missing_origin_fails_witness :
    ∃ n, create_order
        ⟨[⟨1, "블렌딩원두", "blend"⟩, ⟨2, "브라질", "single_origin"⟩],
         [⟨1, 1, 100⟩, ⟨2, 2, 100⟩], [], []⟩
        ⟨"노원베스코", 1, 30, 23000, ⟨2024, 1, 3⟩⟩ 5 =
        .error (.rawMaterialNotFound n) ∧
      (∃ r, (n, r) ∈ origin_mix) ∧
      List.find? (fun x : Material => x.name == n && x.type == "single_origin")
        [⟨1, "블렌딩원두", "blend"⟩, ⟨2, "브라질", "single_origin"⟩] = none :=
  create_order_missing_origin_fails
    ⟨[⟨1, "블렌딩원두", "blend"⟩, ⟨2, "브라질", "single_origin"⟩],
     [⟨1, 1, 100⟩, ⟨2, 2, 100⟩], [], []⟩
    ⟨"노원베스코", 1, 30, 23000, ⟨2024, 1, 3⟩⟩ 5 ⟨1, "블렌딩원두", "blend"⟩
    (by rfl) rfl ⟨("콜롬비아", (0.20 : ℚ)), by simp [origin_mix], by rfl⟩

/-- The claim that every purchase deletion over-drawing inventory fails and
changes nothing is false for the legacy DELETE /purchases/{id}/ endpoint:
deleting a 10 kg purchase with only 5 kg in stock succeeds, clamps the
inventory to 0 and removes the purchase record. -/
theorem delete_purchase_overdraw_succeeds_cex :
    delete_purchase
      ⟨[⟨1, "원두A", "regular"⟩], [⟨1, 1, 5⟩], [],
       [⟨1, 1, "원두A", 10, 100, 1000, ⟨2024, 1, 5⟩⟩]⟩ 1 =
      .ok ⟨[⟨1, "원두A", "regular"⟩], [⟨1, 1, 0⟩], [], []⟩ ∧
    (5 : ℚ) < 10 := by
  constructor
  · simp [delete_purchase, invLookup, invSet]
    norm_num
  · norm_num

/-- C7 (amended) -- Deleting a purchase whose quantity exceeds current
stock fails with the insufficient-stock error, leaving inventory and the
purchase unchanged, on the DELETE /material-purchases/{id} endpoint; the
legacy DELETE /purchases/{id}/ endpoint instead succeeds, clamping the
inventory quantity at `max 0 (current - quantity_kg)` and removing the
purchase record. -/
theorem delete_material_purchase_overdraw_fails
    (s : DBState) (purchase_id : Nat) (purchase : MaterialPurchase) (cur : ℚ)
    (hfind : s.purchases.find? (fun p => p.id == purchase_id) = some purchase)
    (hinv : invLookup s.inventory purchase.material_id = some cur)
    (hlt : cur < purchase.quantity_kg) :
    delete_material_purchase s purchase_id = .error .insufficientInventory ∧
    delete_purchase s purchase_id =
      .ok { s with
        inventory := invSet s.inventory purchase.material_id
          (max 0 (cur - purchase.quantity_kg))
        purchases := s.purchases.filter (fun p => decide (p.id ≠ purchase_id)) } := by
  constructor
  · simp only [delete_material_purchase, hfind, hinv]
    rw [if_neg (not_le.mpr hlt)]
  · simp only [delete_purchase, hfind, hinv]

/-- Concrete instantiation of the amended purchase-deletion theorem at the
5 kg stock / 10 kg purchase input. -/
theorem delete_material_purchase_overdraw_fails_witness :
    delete_material_purchase
      ⟨[⟨1, "원두A", "regular"⟩], [⟨1, 1, 5⟩], [],
       [⟨1, 1, "원두A", 10, 100, 1000, ⟨2024, 1, 5⟩⟩]⟩ 1 =
      .error .insufficientInventory ∧
    delete_purchase
      ⟨[⟨1, "원두A", "regular"⟩], [⟨1, 1, 5⟩], [],
       [⟨1, 1, "원두A", 10, 100, 1000, ⟨2024, 1, 5⟩⟩]⟩ 1 =
      .ok { DBState.mk [⟨1, "원두A", "regular"⟩] [⟨1, 1, 5⟩] []
            [⟨1, 1, "원두A", 10, 100, 1000, ⟨2024, 1, 5⟩⟩] with
        inventory := invSet [⟨1, 1, 5⟩] 1 (max 0 ((5 : ℚ) - 10))
        purchases := List.filter (fun p => decide (p.id ≠ 1))
          [⟨1, 1, "원두A", 10, 100, 1000, ⟨2024, 1, 5⟩⟩] } :=
  delete_material_purchase_overdraw_fails
    ⟨[⟨1, "원두A", "regular"⟩], [⟨1, 1, 5⟩], [],
     [⟨1, 1, "원두A", 10, 100, 1000, ⟨2024, 1, 5⟩⟩]⟩ 1
    ⟨1, 1, "원두A", 10, 100, 1000, ⟨2024, 1, 5⟩⟩ 5 (by rfl) (by rfl) (by norm_num)

/-- Every inventory row is non-negative: the spec's ledger invariant. -/
def invNonneg (inv : List Inventory) : Prop := ∀ r ∈ inv, 0 ≤ r.quantity

theorem invLookup_mem {inv : List Inventory} {mid : Nat} {c : ℚ}
    (h : invLookup inv mid = some c) : ∃ r ∈ inv, r.quantity = c := by
  induction inv with
  | nil => cases h
  | cons r rs ih =>
    simp only [invLookup] at h
    split at h
    · cases h; exact ⟨r, List.mem_cons_self _ _, rfl⟩
    · obtain ⟨r', hr', hq⟩ := ih h
      exact ⟨r', List.mem_cons_of_mem _ hr', hq⟩

theorem invSet_nonneg {inv : List Inventory} {mid : Nat} {q : ℚ}
    (hq : 0 ≤ q) (hnn : invNonneg inv) : invNonneg (invSet inv mid q) := by
  intro r' hr'
  rcases invSet_quantity_mem hr' with h | ⟨r, hr, h⟩
  · rw [h]; exact hq
  · rw [h]; exact hnn r hr

theorem invSetById_quantity_mem {inv : List Inventory} {iid : Nat} {q : ℚ}
    {r' : Inventory} (h : r' ∈ invSetById inv iid q) :
    r'.quantity = q ∨ ∃ r ∈ inv, r'.quantity = r.quantity := by
  induction inv with
  | nil => simp [invSetById] at h
  | cons r rs ih =>
    by_cases hr : r.id = iid
    · simp only [invSetById, if_pos hr] at h
      rcases List.mem_cons.mp h with rfl | h'
      · left; rfl
      · right; exact ⟨r', List.mem_cons_of_mem _ h', rfl⟩
    · simp only [invSetById, if_neg hr] at h
      rcases List.mem_cons.mp h with rfl | h'
      · right; exact ⟨r', List.mem_cons_self _ _, rfl⟩
      · rcases ih h' with h'' | ⟨s, hs, hq⟩
        · left; exact h''
        · right; exact ⟨s, List.mem_cons_of_mem _ hs, hq⟩

theorem update_ok_nonneg {materials : List Material} {reqs : List ReqMaterial}
    {incr : Bool} {inv inv' : List Inventory}
    (h : update_inventory_quantities materials reqs incr inv = .ok inv')
    (hnn : invNonneg inv) : invNonneg inv' := by
  induction reqs generalizing inv with
  | nil =>
    simp only [update_inventory_quantities, Except.ok.injEq] at h
    subst h
    exact hnn
  | cons r rs ih =>
    simp only [update_inventory_quantities] at h
    split at h
    · cases h
    · rename_i cur hl
      split at h
      · cases h
      · rename_i hneg
        exact ih h (invSet_nonneg (not_lt.mp hneg) hnn)

/-- One mutating API request of the kinds the inventory invariant is
asserted over: order create/delete, purchase create/delete (both delete
variants) and the direct inventory-quantity update. -/
inductive AdminOp where
  | createOrder (oc : OrderCreate) (new_id : Nat)
  | deleteOrder (order_id : Nat)
  | createPurchase (pc : PurchaseCreate) (new_id new_inv_id : Nat)
  | deletePurchase (purchase_id : Nat)
  | deletePurchaseLegacy (purchase_id : Nat)
  | setInventoryQuantity (inventory_id : Nat) (quantity : ℚ)
deriving DecidableEq, Repr

/-- Dispatch one request to its embedded endpoint. -/
def applyOp (s : DBState) : AdminOp → Except ApiError DBState
  | .createOrder oc new_id => create_order s oc new_id
  | .deleteOrder oid => delete_order s oid
  | .createPurchase pc a b => create_material_purchase s pc a b
  | .deletePurchase pid => delete_material_purchase s pid
  | .deletePurchaseLegacy pid => delete_purchase s pid
  | .setInventoryQuantity iid q => update_inventory_quantity s iid q

/-- Run a request sequence; a rejected request (error = raise + rollback)
leaves the state unchanged and the sequence continues. -/
def runOps : DBState → List AdminOp → DBState
  | s, [] => s
  | s, op :: ops =>
    match applyOp s op with
    | .ok s' => runOps s' ops
    | .error _ => runOps s ops

/-- The inputs under which an operation cannot inject negative stock: a
purchase create must purchase a non-negative quantity, and a direct
inventory update must request a non-negative value (the endpoint itself
checks neither). -/
def opSafe : AdminOp → Prop
  | .createOrder _ _ => True
  | .deleteOrder _ => True
  | .createPurchase pc _ _ => 0 ≤ pc.quantity_kg
  | .deletePurchase _ => True
  | .deletePurchaseLegacy _ => True
  | .setInventoryQuantity _ q => 0 ≤ q

theorem applyOp_ok_nonneg {s : DBState} {op : AdminOp} {s' : DBState}
    (h : applyOp s op = .ok s') (hop : opSafe op) (hnn : invNonneg s.inventory) :
    invNonneg s'.inventory := by
  cases op with
  | createOrder oc new_id =>
    simp only [applyOp, create_order] at h
    split at h
    · cases h
    · split at h
      · cases h
      · split at h
        · cases h
        · rename_i inv' hupd
          cases h
          exact update_ok_nonneg hupd hnn
  | deleteOrder oid =>
    simp only [applyOp, delete_order] at h
    split at h
    · cases h
    · split at h
      · cases h
      · split at h
        · cases h
        · rename_i inv' hupd
          cases h
          exact update_ok_nonneg hupd hnn
  | createPurchase pc a b =>
    simp only [applyOp, create_material_purchase] at h
    split at h
    · cases h
    · cases h
      cases hl : invLookup s.inventory pc.material_id with
      | some cur =>
        simp only [hl]
        obtain ⟨r0, hr0, hq0⟩ := invLookup_mem hl
        exact invSet_nonneg (add_nonneg (hq0 ▸ hnn r0 hr0) hop) hnn
      | none =>
        simp only [hl]
        intro r hr
        rcases List.mem_append.mp hr with h1 | h2
        · exact hnn r h1
        · simp at h2
          subst h2
          exact hop
  | deletePurchase pid =>
    simp only [applyOp, delete_material_purchase] at h
    split at h
    · cases h
    · rename_i purchase hfind
      split at h
      · rename_i cur hl
        split at h
        · rename_i hle
          cases h
          exact invSet_nonneg (sub_nonneg.mpr hle) hnn
        · cases h
      · cases h
        exact hnn
  | deletePurchaseLegacy pid =>
    simp only [applyOp, delete_purchase] at h
    split at h
    · cases h
    · rename_i purchase hfind
      cases h
      cases hl : invLookup s.inventory purchase.material_id with
      | some cur =>
        simp only [hl]
        exact invSet_nonneg (le_max_left _ _) hnn
      | none =>
        simp only [hl]
        exact hnn
  | setInventoryQuantity iid q =>
    simp only [applyOp, update_inventory_quantity] at h
    split at h
    · cases h
      intro r hr
      rcases invSetById_quantity_mem hr with h1 | ⟨r0, hr0, h1⟩
      · rw [h1]; exact hop
      · rw [h1]; exact hnn r0 hr0
    · cases h

/-- The inventory invariant as claimed is false on the code: the direct
PUT /inventories/{id}/quantity/ update writes the requested value without
any check, so starting from the non-negative quantity 0 an update to -1 is
accepted (not rejected) and leaves a negative inventory quantity. -/
theorem inventory_update_negative_accepted_cex :
    applyOp ⟨[], [⟨1, 1, 0⟩], [], []⟩ (.setInventoryQuantity 1 (-1)) =
      .ok ⟨[], [⟨1, 1, -1⟩], [], []⟩ ∧
    invNonneg [⟨1, 1, 0⟩] ∧
    ¬ invNonneg (runOps ⟨[], [⟨1, 1, 0⟩], [], []⟩
        [.setInventoryQuantity 1 (-1)]).inventory := by
  have h1 : applyOp ⟨[], [⟨1, 1, 0⟩], [], []⟩ (.setInventoryQuantity 1 (-1)) =
      .ok ⟨[], [⟨1, 1, -1⟩], [], []⟩ := by
    simp [applyOp, update_inventory_quantity, invSetById]
  refine ⟨h1, ?_, ?_⟩
  · intro r hr
    simp at hr
    subst hr
    norm_num
  · intro hcon
    have h2 : runOps ⟨[], [⟨1, 1, 0⟩], [], []⟩ [.setInventoryQuantity 1 (-1)] =
        ⟨[], [⟨1, 1, -1⟩], [], []⟩ := by
      simp only [runOps, h1]
    rw [h2] at hcon
    have h3 := hcon ⟨1, 1, -1⟩ (by simp)
    norm_num at h3

/-- C2 (amended) -- For every sequence of order create, order delete,
purchase create, purchase delete and inventory update operations starting
from non-negative inventory, every inventory quantity remains non-negative
after each operation, provided purchase creations and direct
inventory-quantity updates carry non-negative values: the ledger-mediated
paths reject any change that would go negative, but the direct update
endpoint writes its value unchecked, so the restriction on it cannot be
dropped (see the counterexample). -/
theorem runOps_preserves_nonneg (ops : List AdminOp) (s : DBState)
    (hs : invNonneg s.inventory) (hops : ∀ op ∈ ops, opSafe op) :
    invNonneg (runOps s ops).inventory := by
  induction ops generalizing s with
  | nil => exact hs
  | cons op ops ih =>
    simp only [runOps]
    split
    · rename_i s' hap
      exact ih s' (applyOp_ok_nonneg hap (hops op (List.mem_cons_self _ _)) hs)
        (fun op' h' => hops op' (List.mem_cons_of_mem _ h'))
    · exact ih s hs (fun op' h' => hops op' (List.mem_cons_of_mem _ h'))

/-- Concrete instantiation of the amended invariant: a purchase create, an
order create, an order delete and a direct update, run from non-negative
stock, end with non-negative stock. -/
theorem runOps_preserves_nonneg_witness :
    invNonneg (runOps ⟨[⟨1, "원두A", "regular"⟩], [⟨7, 1, 5⟩], [], []⟩
      [.createPurchase ⟨1, 20, 9000, none, ⟨2024, 1, 2⟩⟩ 1 8,
       .createOrder ⟨"노원베스코", 1, 10, 23000, ⟨2024, 1, 3⟩⟩ 1,
       .deleteOrder 1,
       .setInventoryQuantity 7 3]).inventory :=
  runOps_preserves_nonneg
    [.createPurchase ⟨1, 20, 9000, none, ⟨2024, 1, 2⟩⟩ 1 8,
     .createOrder ⟨"노원베스코", 1, 10, 23000, ⟨2024, 1, 3⟩⟩ 1,
     .deleteOrder 1,
     .setInventoryQuantity 7 3]
    ⟨[⟨1, "원두A", "regular"⟩], [⟨7, 1, 5⟩], [], []⟩
    (by
      intro r hr
      simp at hr
      subst hr
      norm_num)
    (by
      intro op hop
      simp only [List.mem_cons, List.not_mem_nil, or_false] at hop
      rcases hop with rfl | rfl | rfl | rfl <;> simp [opSafe])

/-- Modelled from the spec: the SQL routine `calculate_blending_cost`,
invoked by name from every report query of `app/routers/analytics.py`, is
not part of the repository's source (spec §6: a blend-cost SQL helper
routine is invoked by name from report queries and must be reproduced as an
equivalent function).  Per spec §4.2 it resolves, for each component of the
blend, the latest applicable purchase price at or before the period's
relevant date (here the window's end date) and returns the ratio-weighted
sum `blend_cost = Σ(component_price_i * ratio_i)`; a component with no
resolvable price contributes 0 (the §4.1 fallback), never an error. -/
def calculate_blending_cost (purchases : List MaterialPurchase)
    (components : List BlendComponent) (ed : Date) : ℚ :=
  (components.map fun c =>
    resolve_unit_cost purchases c.component_id ed * c.portion).sum

/-- The `(profit / sales * 100) if sales > 0 else 0` guard shared by every
report shape of `app/routers/analytics.py`. -/
def profitRate (sales profit : ℚ) : ℚ :=
  if 0 < sales then profit / sales * 100 else 0

/-- `SUM(total_price)` over a group of orders. -/
def groupSales (rows : List Order) (p : Order → Bool) : ℚ :=
  ((rows.filter p).map Order.total_price).sum

/-- `SUM(quantity)` over a group of orders. -/
def groupQty (rows : List Order) (p : Order → Bool) : ℚ :=
  ((rows.filter p).map Order.quantity).sum

/-- The per-order cost rate of the grouped cost queries:
`CASE WHEN material_type = 'blend' THEN :blending_cost ELSE price_per_kg END`. -/
def orderCostRate (purchases : List MaterialPurchase) (blending_cost : ℚ)
    (t : String) (o : Order) : ℚ :=
  if t = "blend" then blending_cost
  else resolve_unit_cost purchases o.material_id o.order_date

/-- Total sales of `get_profit_summary`: every in-window order, no join. -/
def summary_sales (orders : List Order) (sd ed : Date) : ℚ :=
  ((orders.filter (inRange sd ed)).map Order.total_price).sum

/-- Blend-order quantity of `get_profit_summary` (in-window orders joined
to a material of type blend). -/
def blending_quantity (orders : List Order) (materials : List Material)
    (sd ed : Date) : ℚ :=
  ((orders.filter fun o =>
      inRange sd ed o && (material_type materials o.material_id == some "blend")).map
    Order.quantity).sum

/-- Total cost of `get_profit_summary`:
`blending_cost_per_kg * blending_quantity + regular_cost`. -/
def summary_total_cost (orders : List Order) (materials : List Material)
    (purchases : List MaterialPurchase) (components : List BlendComponent)
    (sd ed : Date) : ℚ :=
  calculate_blending_cost purchases components ed *
    blending_quantity orders materials sd ed +
  regular_cost purchases materials orders sd ed

/-- The inclusive month count of the summary's rent line:
`(end.year - start.year) * 12 + end.month - start.month + 1`. -/
def months_diff (sd ed : Date) : Int :=
  (ed.year - sd.year) * 12 + (ed.month : Int) - (sd.month : Int) + 1

/-- The fixed-overhead block of `get_profit_summary`: packaging 1000/kg of
blend, shipping 6000 per 15 kg of blend, 1000 per order, rent 650000 per
inclusive month. -/
def summary_extra_costs (orders : List Order) (materials : List Material)
    (sd ed : Date) : ℚ :=
  blending_quantity orders materials sd ed * 1000 +
  blending_quantity orders materials sd ed / 15 * 6000 +
  ((orders.filter (inRange sd ed)).length : ℚ) * 1000 +
  (months_diff sd ed : ℚ) * 650000

/-- The payload of GET /api/analytics/profit/summary. -/
structure ProfitSummary where
  total_sales : ℚ
  total_quantity : ℚ
  total_orders : Nat
  blending_quantity : ℚ
  blending_cost_per_kg : ℚ
  total_cost : ℚ
  total_profit : ℚ
  profit_rate : ℚ
  extra_costs : ℚ
  net_profit : ℚ
  net_profit_rate : ℚ
deriving DecidableEq, Repr

/-- `get_profit_summary` (`app/routers/analytics.py`). -/
def get_profit_summary (orders : List Order) (materials : List Material)
    (purchases : List MaterialPurchase) (components : List BlendComponent)
    (sd ed : Date) : ProfitSummary :=
  ⟨summary_sales orders sd ed,
   ((orders.filter (inRange sd ed)).map Order.quantity).sum,
   (orders.filter (inRange sd ed)).length,
   blending_quantity orders materials sd ed,
   calculate_blending_cost purchases components ed,
   summary_total_cost orders materials purchases components sd ed,
   summary_sales orders sd ed -
     summary_total_cost orders materials purchases components sd ed,
   profitRate (summary_sales orders sd ed)
     (summary_sales orders sd ed -
       summary_total_cost orders materials purchases components sd ed),
   summary_extra_costs orders materials sd ed,
   summary_sales orders sd ed -
     summary_total_cost orders materials purchases components sd ed -
     summary_extra_costs orders materials sd ed,
   profitRate (summary_sales orders sd ed)
     (summary_sales orders sd ed -
       summary_total_cost orders materials purchases components sd ed -
       summary_extra_costs orders materials sd ed)⟩

/-- One row of GET /api/analytics/profit/by-product. -/
structure ProductProfitRow where
  material_id : Nat
  material_name : String
  quantity : ℚ
  sales : ℚ
  cost : ℚ
  profit : ℚ
  profit_rate : ℚ
deriving DecidableEq, Repr

/-- One row of GET /api/analytics/profit/by-customer. -/
structure CustomerProfitRow where
  customer_name : String
  sales : ℚ
  cost : ℚ
  profit : ℚ
  profit_rate : ℚ
deriving DecidableEq, Repr

/-- One row of GET /api/analytics/profit/monthly. -/
structure MonthlyProfitRow where
  year : Int
  month : Nat
  sales : ℚ
  cost : ℚ
  profit : ℚ
  profit_rate : ℚ
  quantity : ℚ
deriving DecidableEq, Repr

/-- The sales query's GROUP BY (material_id, material_name) keys, in first
occurrence order. -/
def product_keys (rows : List Order) : List (Nat × String) :=
  (rows.map fun o => (o.material_id, o.material_name)).dedup

/-- The by-product cost query: in-window orders joined to their material,
grouped, each order costed at `orderCostRate`. -/
def product_cost_groups (orders : List Order) (materials : List Material)
    (purchases : List MaterialPurchase) (blending_cost : ℚ) (sd ed : Date) :
    List (Nat × String × ℚ) :=
  (product_keys (orders.filter fun o =>
      inRange sd ed o && (material_type materials o.material_id).isSome)).map fun k =>
    (k.1, k.2,
      (((orders.filter fun o =>
          inRange sd ed o && (material_type materials o.material_id).isSome).filter
            fun o => o.material_id == k.1 && o.material_name == k.2).map fun o =>
        o.quantity * orderCostRate purchases blending_cost
          ((material_type materials o.material_id).getD "") o).sum)

/-- The Python combine step's cost lookup: the first cost group with the
row's material id, 0 when none. -/
def lookupCostN (l : List (Nat × String × ℚ)) (mid : Nat) : ℚ :=
  match l.find? fun cr => cr.1 == mid with
  | some cr => cr.2.2
  | none => 0

/-- One combined by-product row: sales and quantity from the sales group,
cost from the first matching cost group, profit as their subtraction. -/
def productRow (rows : List Order) (cost_results : List (Nat × String × ℚ))
    (k : Nat × String) : ProductProfitRow :=
  ⟨k.1, k.2,
   groupQty rows (fun o => o.material_id == k.1 && o.material_name == k.2),
   groupSales rows (fun o => o.material_id == k.1 && o.material_name == k.2),
   lookupCostN cost_results k.1,
   groupSales rows (fun o => o.material_id == k.1 && o.material_name == k.2) -
     lookupCostN cost_results k.1,
   profitRate
     (groupSales rows (fun o => o.material_id == k.1 && o.material_name == k.2))
     (groupSales rows (fun o => o.material_id == k.1 && o.material_name == k.2) -
       lookupCostN cost_results k.1)⟩

/-- `get_product_profits` (`app/routers/analytics.py`), sorted by profit
descending. -/
def get_product_profits (orders : List Order) (materials : List Material)
    (purchases : List MaterialPurchase) (components : List BlendComponent)
    (sd ed : Date) : List ProductProfitRow :=
  ((product_keys (orders.filter (inRange sd ed))).map
    (productRow (orders.filter (inRange sd ed))
      (product_cost_groups orders materials purchases
        (calculate_blending_cost purchases components ed) sd ed))).mergeSort
    fun a b => decide (b.profit ≤ a.profit)

/-- The by-customer GROUP BY keys. -/
def customer_keys (rows : List Order) : List String :=
  (rows.map Order.customer_name).dedup

/-- The by-customer cost query (joined, grouped by customer name). -/
def customer_cost_groups (orders : List Order) (materials : List Material)
    (purchases : List MaterialPurchase) (blending_cost : ℚ) (sd ed : Date) :
    List (String × ℚ) :=
  (customer_keys (orders.filter fun o =>
      inRange sd ed o && (material_type materials o.material_id).isSome)).map fun k =>
    (k, (((orders.filter fun o =>
        inRange sd ed o && (material_type materials o.material_id).isSome).filter
          fun o => o.customer_name == k).map fun o =>
      o.quantity * orderCostRate purchases blending_cost
        ((material_type materials o.material_id).getD "") o).sum)

/-- Cost lookup by customer name, 0 when none. -/
def lookupCostS (l : List (String × ℚ)) (name : String) : ℚ :=
  match l.find? fun cr => cr.1 == name with
  | some cr => cr.2
  | none => 0

/-- One combined by-customer row. -/
def customerRow (rows : List Order) (cost_results : List (String × ℚ))
    (k : String) : CustomerProfitRow :=
  ⟨k,
   groupSales rows (fun o => o.customer_name == k),
   lookupCostS cost_results k,
   groupSales rows (fun o => o.customer_name == k) - lookupCostS cost_results k,
   profitRate (groupSales rows (fun o => o.customer_name == k))
     (groupSales rows (fun o => o.customer_name == k) -
       lookupCostS cost_results k)⟩

/-- `get_customer_profits` (`app/routers/analytics.py`), sorted by profit
descending. -/
def get_customer_profits (orders : List Order) (materials : List Material)
    (purchases : List MaterialPurchase) (components : List BlendComponent)
    (sd ed : Date) : List CustomerProfitRow :=
  ((customer_keys (orders.filter (inRange sd ed))).map
    (customerRow (orders.filter (inRange sd ed))
      (customer_cost_groups orders materials purchases
        (calculate_blending_cost purchases components ed) sd ed))).mergeSort
    fun a b => decide (b.profit ≤ a.profit)

/-- The monthly GROUP BY (year, month) keys. -/
def month_keys (rows : List Order) : List (Int × Nat) :=
  (rows.map fun o => (o.order_date.year, o.order_date.month)).dedup

/-- The monthly cost query (joined, grouped by year and month). -/
def monthly_cost_groups (orders : List Order) (materials : List Material)
    (purchases : List MaterialPurchase) (blending_cost : ℚ) (sd ed : Date) :
    List (Int × Nat × ℚ) :=
  (month_keys (orders.filter fun o =>
      inRange sd ed o && (material_type materials o.material_id).isSome)).map fun k =>
    (k.1, k.2,
      (((orders.filter fun o =>
          inRange sd ed o && (material_type materials o.material_id).isSome).filter
            fun o => o.order_date.year == k.1 && o.order_date.month == k.2).map fun o =>
        o.quantity * orderCostRate purchases blending_cost
          ((material_type materials o.material_id).getD "") o).sum)

/-- Cost lookup by (year, month), 0 when none. -/
def lookupCostYM (l : List (Int × Nat × ℚ)) (y : Int) (m : Nat) : ℚ :=
  match l.find? fun cr => cr.1 == y && cr.2.1 == m with
  | some cr => cr.2.2
  | none => 0

/-- One combined monthly row. -/
def monthlyRow (rows : List Order) (cost_results : List (Int × Nat × ℚ))
    (k : Int × Nat) : MonthlyProfitRow :=
  ⟨k.1, k.2,
   groupSales rows (fun o => o.order_date.year == k.1 && o.order_date.month == k.2),
   lookupCostYM cost_results k.1 k.2,
   groupSales rows (fun o => o.order_date.year == k.1 && o.order_date.month == k.2) -
     lookupCostYM cost_results k.1 k.2,
   profitRate
     (groupSales rows (fun o => o.order_date.year == k.1 && o.order_date.month == k.2))
     (groupSales rows (fun o => o.order_date.year == k.1 && o.order_date.month == k.2) -
       lookupCostYM cost_results k.1 k.2),
   groupQty rows (fun o => o.order_date.year == k.1 && o.order_date.month == k.2)⟩

/-- `get_monthly_profits` (`app/routers/analytics.py`), sorted by
(year, month) ascending. -/
def get_monthly_profits (orders : List Order) (materials : List Material)
    (purchases : List MaterialPurchase) (components : List BlendComponent)
    (sd ed : Date) : List MonthlyProfitRow :=
  ((month_keys (orders.filter (inRange sd ed))).map
    (monthlyRow (orders.filter (inRange sd ed))
      (monthly_cost_groups orders materials purchases
        (calculate_blending_cost purchases components ed) sd ed))).mergeSort
    fun a b => decide (a.year < b.year ∨ (a.year = b.year ∧ a.month ≤ b.month))

theorem resolve_no_purchase_zero {purchases : List MaterialPurchase} {mid : Nat}
    {as_of : Date}
    (h : ∀ p ∈ purchases, p.material_id = mid → ¬ Date.le p.purchase_date as_of) :
    resolve_unit_cost purchases mid as_of = 0 := by
  unfold resolve_unit_cost
  have hfil : purchases.filter
      (fun p => p.material_id == mid && decide (Date.le p.purchase_date as_of)) = [] := by
    rw [List.filter_eq_nil_iff]
    intro p hp
    simp only [Bool.and_eq_true, beq_iff_eq, decide_eq_true_eq, not_and]
    exact h p hp
  rw [hfil]
  simp [latestPurchase]

/-- C8 -- The blend cost per kg is the ratio-weighted sum of the blend's
component prices, `blend_cost = Σ(component_price_i * ratio_i)`, where a
component whose price cannot be resolved in the window contributes 0
(fallback, not an error). -/
theorem calculate_blending_cost_weighted_sum
    (purchases : List MaterialPurchase) (components : List BlendComponent)
    (ed : Date) :
    calculate_blending_cost purchases components ed =
      (components.map fun c =>
        resolve_unit_cost purchases c.component_id ed * c.portion).sum ∧
    ∀ c ∈ components,
      (∀ p ∈ purchases, p.material_id = c.component_id →
        ¬ Date.le p.purchase_date ed) →
      resolve_unit_cost purchases c.component_id ed * c.portion = 0 := by
  refine ⟨rfl, ?_⟩
  intro c hc hnone
  rw [resolve_no_purchase_zero hnone, zero_mul]

/-- Concrete instantiation of the blend-cost theorem: a two-component blend
whose second component has no purchase at all contributes 0 for that
component. -/
theorem calculate_blending_cost_weighted_sum_witness :
    calculate_blending_cost [⟨1, 2, "브라질", 50, 9000, 450000, ⟨2024, 1, 2⟩⟩]
      [⟨1, 2, (0.55 : ℚ)⟩, ⟨1, 3, (0.45 : ℚ)⟩] ⟨2024, 6, 30⟩ =
      ([⟨1, 2, (0.55 : ℚ)⟩, ⟨1, 3, (0.45 : ℚ)⟩].map fun c : BlendComponent =>
        resolve_unit_cost [⟨1, 2, "브라질", 50, 9000, 450000, ⟨2024, 1, 2⟩⟩]
          c.component_id ⟨2024, 6, 30⟩ * c.portion).sum ∧
    resolve_unit_cost [⟨1, 2, "브라질", 50, 9000, 450000, ⟨2024, 1, 2⟩⟩] 3
      ⟨2024, 6, 30⟩ * (0.45 : ℚ) = 0 :=
  ⟨(calculate_blending_cost_weighted_sum
      [⟨1, 2, "브라질", 50, 9000, 450000, ⟨2024, 1, 2⟩⟩]
      [⟨1, 2, (0.55 : ℚ)⟩, ⟨1, 3, (0.45 : ℚ)⟩] ⟨2024, 6, 30⟩).1,
   (calculate_blending_cost_weighted_sum
      [⟨1, 2, "브라질", 50, 9000, 450000, ⟨2024, 1, 2⟩⟩]
      [⟨1, 2, (0.55 : ℚ)⟩, ⟨1, 3, (0.45 : ℚ)⟩] ⟨2024, 6, 30⟩).2
     ⟨1, 3, (0.45 : ℚ)⟩ (by simp) (by decide)⟩

/-- C4 -- In every report shape the reported profit is exactly the
reported sales minus the reported cost, computed as that subtraction: the
summary's total, and every by-product, by-customer and monthly row. -/
theorem profit_eq_sales_sub_cost
    (orders : List Order) (materials : List Material)
    (purchases : List MaterialPurchase) (components : List BlendComponent)
    (sd ed : Date) :
    (get_profit_summary orders materials purchases components sd ed).total_profit =
      (get_profit_summary orders materials purchases components sd ed).total_sales -
      (get_profit_summary orders materials purchases components sd ed).total_cost ∧
    (∀ row ∈ get_product_profits orders materials purchases components sd ed,
      row.profit = row.sales - row.cost) ∧
    (∀ row ∈ get_customer_profits orders materials purchases components sd ed,
      row.profit = row.sales - row.cost) ∧
    (∀ row ∈ get_monthly_profits orders materials purchases components sd ed,
      row.profit = row.sales - row.cost) := by
  refine ⟨rfl, ?_, ?_, ?_⟩
  · intro row hrow
    simp only [get_product_profits] at hrow
    obtain ⟨k, hk, rfl⟩ :=
      List.mem_map.mp ((List.mergeSort_perm _ _).mem_iff.mp hrow)
    rfl
  · intro row hrow
    simp only [get_customer_profits] at hrow
    obtain ⟨k, hk, rfl⟩ :=
      List.mem_map.mp ((List.mergeSort_perm _ _).mem_iff.mp hrow)
    rfl
  · intro row hrow
    simp only [get_monthly_profits] at hrow
    obtain ⟨k, hk, rfl⟩ :=
      List.mem_map.mp ((List.mergeSort_perm _ _).mem_iff.mp hrow)
    rfl

/-- Concrete instantiation of the profit-subtraction theorem on a one-order
window. -/
theorem profit_eq_sales_sub_cost_witness :
    (get_profit_summary [⟨1, "노원베스코", 1, "원두A", 30, 23000, 690000, ⟨2024, 1, 3⟩⟩]
        [⟨1, "원두A", "regular"⟩] [] [] ⟨2024, 1, 1⟩ ⟨2024, 12, 31⟩).total_profit =
      (get_profit_summary [⟨1, "노원베스코", 1, "원두A", 30, 23000, 690000, ⟨2024, 1, 3⟩⟩]
        [⟨1, "원두A", "regular"⟩] [] [] ⟨2024, 1, 1⟩ ⟨2024, 12, 31⟩).total_sales -
      (get_profit_summary [⟨1, "노원베스코", 1, "원두A", 30, 23000, 690000, ⟨2024, 1, 3⟩⟩]
        [⟨1, "원두A", "regular"⟩] [] [] ⟨2024, 1, 1⟩ ⟨2024, 12, 31⟩).total_cost ∧
    (∀ row ∈ get_product_profits
        [⟨1, "노원베스코", 1, "원두A", 30, 23000, 690000, ⟨2024, 1, 3⟩⟩]
        [⟨1, "원두A", "regular"⟩] [] [] ⟨2024, 1, 1⟩ ⟨2024, 12, 31⟩,
      row.profit = row.sales - row.cost) ∧
    (∀ row ∈ get_customer_profits
        [⟨1, "노원베스코", 1, "원두A", 30, 23000, 690000, ⟨2024, 1, 3⟩⟩]
        [⟨1, "원두A", "regular"⟩] [] [] ⟨2024, 1, 1⟩ ⟨2024, 12, 31⟩,
      row.profit = row.sales - row.cost) ∧
    (∀ row ∈ get_monthly_profits
        [⟨1, "노원베스코", 1, "원두A", 30, 23000, 690000, ⟨2024, 1, 3⟩⟩]
        [⟨1, "원두A", "regular"⟩] [] [] ⟨2024, 1, 1⟩ ⟨2024, 12, 31⟩,
      row.profit = row.sales - row.cost) :=
  profit_eq_sales_sub_cost
    [⟨1, "노원베스코", 1, "원두A", 30, 23000, 690000, ⟨2024, 1, 3⟩⟩]
    [⟨1, "원두A", "regular"⟩] [] [] ⟨2024, 1, 1⟩ ⟨2024, 12, 31⟩

/-- C9 -- In every report shape, a group with zero sales reports a
profit rate of 0: the `if sales > 0` guard takes the 0 branch, so no
division by the zero sales value is ever performed. -/
theorem profit_rate_zero_when_no_sales
    (orders : List Order) (materials : List Material)
    (purchases : List MaterialPurchase) (components : List BlendComponent)
    (sd ed : Date) :
    ((get_profit_summary orders materials purchases components sd ed).total_sales = 0 →
      (get_profit_summary orders materials purchases components sd ed).profit_rate = 0 ∧
      (get_profit_summary orders materials purchases components sd ed).net_profit_rate = 0) ∧
    (∀ row ∈ get_product_profits orders materials purchases components sd ed,
      row.sales = 0 → row.profit_rate = 0) ∧
    (∀ row ∈ get_customer_profits orders materials purchases components sd ed,
      row.sales = 0 → row.profit_rate = 0) ∧
    (∀ row ∈ get_monthly_profits orders materials purchases components sd ed,
      row.sales = 0 → row.profit_rate = 0) := by
  have hzero : ∀ p : ℚ, profitRate 0 p = 0 := by
    intro p
    simp [profitRate]
  refine ⟨?_, ?_, ?_, ?_⟩
  · intro h
    constructor
    · show profitRate (summary_sales orders sd ed) _ = 0
      rw [show summary_sales orders sd ed = 0 from h]
      exact hzero _
    · show profitRate (summary_sales orders sd ed) _ = 0
      rw [show summary_sales orders sd ed = 0 from h]
      exact hzero _
  · intro row hrow h0
    simp only [get_product_profits] at hrow
    obtain ⟨k, hk, rfl⟩ :=
      List.mem_map.mp ((List.mergeSort_perm _ _).mem_iff.mp hrow)
    simp only [productRow] at h0 ⊢
    rw [h0]
    exact hzero _
  · intro row hrow h0
    simp only [get_customer_profits] at hrow
    obtain ⟨k, hk, rfl⟩ :=
      List.mem_map.mp ((List.mergeSort_perm _ _).mem_iff.mp hrow)
    simp only [customerRow] at h0 ⊢
    rw [h0]
    exact hzero _
  · intro row hrow h0
    simp only [get_monthly_profits] at hrow
    obtain ⟨k, hk, rfl⟩ :=
      List.mem_map.mp ((List.mergeSort_perm _ _).mem_iff.mp hrow)
    simp only [monthlyRow] at h0 ⊢
    rw [h0]
    exact hzero _

/-- Concrete instantiation of the zero-sales theorem on an empty window. -/
theorem profit_rate_zero_when_no_sales_witness :
    ((get_profit_summary [] [] [] [] ⟨2024, 1, 1⟩ ⟨2024, 12, 31⟩).total_sales = 0 →
      (get_profit_summary [] [] [] [] ⟨2024, 1, 1⟩ ⟨2024, 12, 31⟩).profit_rate = 0 ∧
      (get_profit_summary [] [] [] [] ⟨2024, 1, 1⟩ ⟨2024, 12, 31⟩).net_profit_rate = 0) ∧
    (∀ row ∈ get_product_profits [] [] [] [] ⟨2024, 1, 1⟩ ⟨2024, 12, 31⟩,
      row.sales = 0 → row.profit_rate = 0) ∧
    (∀ row ∈ get_customer_profits [] [] [] [] ⟨2024, 1, 1⟩ ⟨2024, 12, 31⟩,
      row.sales = 0 → row.profit_rate = 0) ∧
    (∀ row ∈ get_monthly_profits [] [] [] [] ⟨2024, 1, 1⟩ ⟨2024, 12, 31⟩,
      row.sales = 0 → row.profit_rate = 0) :=
  profit_rate_zero_when_no_sales [] [] [] [] ⟨2024, 1, 1⟩ ⟨2024, 12, 31⟩

end Besco
